import Mathlib

/-
Shallow embedding of the image-cropper widget (React/TypeScript source).
Geometry is modelled over the rationals: the source manipulates JS numbers
with +, -, *, /, Math.max and Math.min only, so the clamp arithmetic is
exact here.  The drag controller, the export geometry, the mask fallback,
the rendering-context guards and the rotation actions are each translated
directly from the corresponding source functions.
-/

namespace Cropper

/-- Crop-frame geometry, from the source's FrameCoords: top-left offset
(tx, ty) and size (sx, sy) in stage-relative pixels. -/
structure FrameCoords where
  tx : ℚ
  ty : ℚ
  sx : ℚ
  sy : ℚ
deriving DecidableEq, Repr

/-- Drag handles: the frame body (move), four corners and four edges,
as passed to handleMouseDown in the source. -/
inductive Handle where
  | move
  | tl
  | tr
  | bl
  | br
  | t
  | r
  | b
  | l
deriving DecidableEq, Repr

/-- activeHandle.includes("r") on the handle strings. -/
def hasR : Handle → Bool
  | .tr => true
  | .br => true
  | .r => true
  | _ => false

/-- activeHandle.includes("l") on the handle strings. -/
def hasL : Handle → Bool
  | .tl => true
  | .bl => true
  | .l => true
  | _ => false

/-- activeHandle.includes("b") on the handle strings. -/
def hasB : Handle → Bool
  | .bl => true
  | .br => true
  | .b => true
  | _ => false

/-- activeHandle.includes("t") on the handle strings. -/
def hasT : Handle → Bool
  | .tl => true
  | .tr => true
  | .t => true
  | _ => false

/-- Default of the aspectRatio prop: the component declares
aspectRatio = 1 when the caller omits it. -/
def defaultRatio : ℚ := 1

/-- One pointer-move update of the frame, translated from handleMouseMove.
ratio is the aspectRatio prop (0 models a falsy value, for which the
source's truthiness test skips the aspect branch), rectW and rectH are the
stage bounding rectangle, ds is dragStart, (x, y) the stage-relative
pointer.  Each branch reads the previous frame, exactly as the source
reads prev; the aspect branch reads the values written by the resize
branches, as the source reads newFrame. -/
def handleMouseMove (ratio rectW rectH : ℚ) (ds : ℚ × ℚ) (x y : ℚ)
    (h : Handle) (prev : FrameCoords) : FrameCoords :=
  if h = Handle.move then
    { prev with
        tx := max 0 (min (prev.tx + (x - ds.1)) (rectW - prev.sx)),
        ty := max 0 (min (prev.ty + (y - ds.2)) (rectH - prev.sy)) }
  else
    let nf1 :=
      if hasR h then
        { prev with sx := max 100 (min (x - prev.tx) (rectW - prev.tx)) }
      else prev
    let nf2 :=
      if hasL h then
        { nf1 with
            sx := prev.sx + (prev.tx - max 0 (min x (prev.tx + prev.sx - 100))),
            tx := max 0 (min x (prev.tx + prev.sx - 100)) }
      else nf1
    let nf3 :=
      if hasB h then
        { nf2 with sy := max 100 (min (y - prev.ty) (rectH - prev.ty)) }
      else nf2
    let nf4 :=
      if hasT h then
        { nf3 with
            sy := prev.sy + (prev.ty - max 0 (min y (prev.ty + prev.sy - 100))),
            ty := max 0 (min y (prev.ty + prev.sy - 100)) }
      else nf3
    if ratio ≠ 0 then
      if hasR h || hasL h then { nf4 with sy := nf4.sx / ratio }
      else { nf4 with sx := nf4.sy * ratio }
    else nf4

/-- One pointer-move event while dragging: the active handle and the
stage-relative pointer position. -/
structure PointerEvent where
  handle : Handle
  x : ℚ
  y : ℚ
deriving DecidableEq, Repr

/-- Runs a drag sequence: each event applies handleMouseMove and then, as
the source does, replaces dragStart by the current pointer position. -/
def runDrag (ratio rectW rectH : ℚ) : List PointerEvent → (ℚ × ℚ) →
    FrameCoords → FrameCoords
  | [], _, f => f
  | e :: rest, ds, f =>
      runDrag ratio rectW rectH rest (e.x, e.y)
        (handleMouseMove ratio rectW rectH ds e.x e.y e.handle f)

/-- Minimum crop size invariant from the spec's data model. -/
def frameMinSize (f : FrameCoords) : Prop := 100 ≤ f.sx ∧ 100 ≤ f.sy

/-- Containment of the frame in the visible stage bounds. -/
def frameInStage (rectW rectH : ℚ) (f : FrameCoords) : Prop :=
  0 ≤ f.tx ∧ 0 ≤ f.ty ∧ f.tx + f.sx ≤ rectW ∧ f.ty + f.sy ≤ rectH

instance : DecidablePred frameMinSize := fun f =>
  inferInstanceAs (Decidable (100 ≤ f.sx ∧ 100 ≤ f.sy))

instance (rectW rectH : ℚ) : DecidablePred (frameInStage rectW rectH) := fun f =>
  inferInstanceAs (Decidable (0 ≤ f.tx ∧ 0 ≤ f.ty ∧
    f.tx + f.sx ≤ rectW ∧ f.ty + f.sy ≤ rectH))

/-- Nonnegative offsets together with the minimum crop size. -/
def framePosMin (f : FrameCoords) : Prop :=
  0 ≤ f.tx ∧ 0 ≤ f.ty ∧ 100 ≤ f.sx ∧ 100 ≤ f.sy

instance : DecidablePred framePosMin := fun f =>
  inferInstanceAs (Decidable (0 ≤ f.tx ∧ 0 ≤ f.ty ∧ 100 ≤ f.sx ∧ 100 ≤ f.sy))

theorem clamp_nonneg (x m : ℚ) : 0 ≤ max 0 (min x m) := le_max_left 0 _

theorem clamp_le_bound (x m : ℚ) (hm : 0 ≤ m) : max 0 (min x m) ≤ m :=
  max_le hm (min_le_right x m)

theorem minSize_step (rectW rectH : ℚ) (ds : ℚ × ℚ) (x y : ℚ) (h : Handle)
    (f : FrameCoords) (hf : framePosMin f) :
    framePosMin (handleMouseMove 1 rectW rectH ds x y h f) := by
  obtain ⟨h0, h1, h2, h3⟩ := hf
  have hx : max 0 (min x (f.tx + f.sx - 100)) ≤ f.tx + f.sx - 100 :=
    clamp_le_bound _ _ (by linarith)
  have hy : max 0 (min y (f.ty + f.sy - 100)) ≤ f.ty + f.sy - 100 :=
    clamp_le_bound _ _ (by linarith)
  have cx : (0:ℚ) ≤ max 0 (min x (f.tx + f.sx - 100)) := clamp_nonneg _ _
  have cy : (0:ℚ) ≤ max 0 (min y (f.ty + f.sy - 100)) := clamp_nonneg _ _
  cases h <;>
    simp [handleMouseMove, hasR, hasL, hasB, hasT, framePosMin, div_one, mul_one] <;>
    (repeat' apply And.intro) <;>
    first
      | exact le_max_left _ _
      | linarith

theorem minSize_runDrag (rectW rectH : ℚ) (evs : List PointerEvent)
    (ds : ℚ × ℚ) (f : FrameCoords) (hf : framePosMin f) :
    framePosMin (runDrag 1 rectW rectH evs ds f) := by
  induction evs generalizing ds f with
  | nil => exact hf
  | cons e rest ih =>
      exact ih _ _ (minSize_step rectW rectH ds e.x e.y e.handle f hf)

/-- C1: the claim fails as stated.  With aspectRatio = 2, a right-edge
resize that clamps sx to the 100 minimum derives sy = sx / 2 = 50, so a
move processed while dragging leaves sy < 100 although the starting frame
satisfied sx ≥ 100 and sy ≥ 100 (and was inside a 600 × 600 stage). -/
theorem c1_counterexample :
    frameInStage 600 600 (⟨0, 0, 300, 150⟩ : FrameCoords) ∧
    frameMinSize (⟨0, 0, 300, 150⟩ : FrameCoords) ∧
    ¬ frameMinSize
      (handleMouseMove 2 600 600 (0, 0) 100 0 Handle.r ⟨0, 0, 300, 150⟩) := by
  norm_num +decide [handleMouseMove, hasR, hasL, hasB, hasT, frameMinSize,
    frameInStage]

/-- C1 (amended): under the default aspectRatio = 1, for every drag
sequence starting from a frame with tx ≥ 0, ty ≥ 0, sx ≥ 100 and
sy ≥ 100, the frame satisfies sx ≥ 100 and sy ≥ 100 after every
pointer-move update; with a fixed aspect ratio other than 1 the derived
dimension is not re-clamped and can drop below 100. -/
theorem c1_min_size_default_ratio (rectW rectH : ℚ) (evs : List PointerEvent)
    (ds : ℚ × ℚ) (f : FrameCoords) (h0 : 0 ≤ f.tx) (h1 : 0 ≤ f.ty)
    (h2 : 100 ≤ f.sx) (h3 : 100 ≤ f.sy) :
    frameMinSize (runDrag defaultRatio rectW rectH evs ds f) := by
  have h := minSize_runDrag rectW rectH evs ds f ⟨h0, h1, h2, h3⟩
  exact ⟨h.2.2.1, h.2.2.2⟩

/-- C1 witness: a concrete right-edge drag at the default ratio. -/
theorem c1_min_size_default_ratio_witness :
    framePosMin (⟨0, 0, 300, 300⟩ : FrameCoords) ∧
    frameMinSize
      (runDrag defaultRatio 600 600 [⟨Handle.r, 400, 0⟩] (0, 0) ⟨0, 0, 300, 300⟩) :=
  ⟨by norm_num [framePosMin],
    c1_min_size_default_ratio 600 600 [⟨Handle.r, 400, 0⟩] (0, 0)
      ⟨0, 0, 300, 300⟩ (by norm_num) (by norm_num) (by norm_num) (by norm_num)⟩

/-- Nonnegative offsets, positive sizes and the exact aspect relation
sx = sy * ratio.  This is the inductive invariant behind C2. -/
def framePosRatio (ratio : ℚ) (f : FrameCoords) : Prop :=
  0 ≤ f.tx ∧ 0 ≤ f.ty ∧ 0 < f.sx ∧ 0 < f.sy ∧ f.sx = f.sy * ratio

instance (ratio : ℚ) : DecidablePred (framePosRatio ratio) := fun f =>
  inferInstanceAs (Decidable (0 ≤ f.tx ∧ 0 ≤ f.ty ∧ 0 < f.sx ∧ 0 < f.sy ∧
    f.sx = f.sy * ratio))

theorem clamp_lt_sum (x t s : ℚ) (ht : 0 ≤ t) (hs : 0 < s) :
    max 0 (min x (t + s - 100)) < t + s := by
  have h1 : max 0 (min x (t + s - 100)) ≤ max 0 (t + s - 100) :=
    max_le_max le_rfl (min_le_right _ _)
  rcases max_cases (0:ℚ) (t + s - 100) with ⟨he, _⟩ | ⟨he, _⟩ <;> linarith

theorem ratio_step (ratio rectW rectH : ℚ) (hr : 0 < ratio) (ds : ℚ × ℚ)
    (x y : ℚ) (h : Handle) (f : FrameCoords) (hf : framePosRatio ratio f) :
    framePosRatio ratio (handleMouseMove ratio rectW rectH ds x y h f) := by
  obtain ⟨h0, h1, h2, h3, h4⟩ := hf
  have hrne : ratio ≠ 0 := ne_of_gt hr
  have lx := clamp_lt_sum x f.tx f.sx h0 h2
  have ly := clamp_lt_sum y f.ty f.sy h1 h3
  have mx : (100:ℚ) ≤ max 100 (min (x - f.tx) (rectW - f.tx)) := le_max_left _ _
  have my : (100:ℚ) ≤ max 100 (min (y - f.ty) (rectH - f.ty)) := le_max_left _ _
  cases h <;>
    simp [handleMouseMove, hasR, hasL, hasB, hasT, framePosRatio, hrne] <;>
    (repeat' apply And.intro) <;>
    first
      | exact le_max_left _ _
      | linarith
      | exact div_pos (by linarith) hr
      | exact mul_pos (by linarith) hr

theorem ratio_runDrag (ratio rectW rectH : ℚ) (hr : 0 < ratio)
    (evs : List PointerEvent) (ds : ℚ × ℚ) (f : FrameCoords)
    (hf : framePosRatio ratio f) :
    framePosRatio ratio (runDrag ratio rectW rectH evs ds f) := by
  induction evs generalizing ds f with
  | nil => exact hf
  | cons e rest ih =>
      exact ih _ _ (ratio_step ratio rectW rectH hr ds e.x e.y e.handle f hf)

/-- C2: when an aspect ratio is fixed (a positive ratio), after every
pointer-move update processed while dragging, starting from a frame with
nonnegative offsets, positive sizes and sx = sy * ratio (as the loader
produces), the ratio sx / sy equals the configured ratio exactly; over
the rational model the floating-point tolerance is met with slack. -/
theorem c2_aspect_ratio_invariant (ratio rectW rectH : ℚ) (hr : 0 < ratio)
    (evs : List PointerEvent) (ds : ℚ × ℚ) (f : FrameCoords)
    (hf : framePosRatio ratio f) :
    (runDrag ratio rectW rectH evs ds f).sx /
      (runDrag ratio rectW rectH evs ds f).sy = ratio := by
  obtain ⟨-, -, -, h3, h4⟩ := ratio_runDrag ratio rectW rectH hr evs ds f hf
  rw [h4]
  exact mul_div_cancel_left₀ ratio (ne_of_gt h3)

/-- C2 witness: a bottom-edge drag with fixed ratio 2. -/
theorem c2_aspect_ratio_invariant_witness :
    (0:ℚ) < 2 ∧ framePosRatio 2 (⟨0, 0, 200, 100⟩ : FrameCoords) ∧
    (runDrag 2 600 600 [⟨Handle.b, 0, 350⟩] (0, 0) ⟨0, 0, 200, 100⟩).sx /
      (runDrag 2 600 600 [⟨Handle.b, 0, 350⟩] (0, 0) ⟨0, 0, 200, 100⟩).sy = 2 :=
  ⟨by norm_num, by norm_num [framePosRatio],
    c2_aspect_ratio_invariant 2 600 600 (by norm_num) [⟨Handle.b, 0, 350⟩]
      (0, 0) ⟨0, 0, 200, 100⟩ (by norm_num [framePosRatio])⟩

theorem inStage_step (rectW rectH : ℚ) (ds : ℚ × ℚ) (x y : ℚ) (h : Handle)
    (f : FrameCoords) (hin : frameInStage rectW rectH f)
    (hmin : frameMinSize f) :
    frameInStage rectW rectH (handleMouseMove 0 rectW rectH ds x y h f) ∧
    frameMinSize (handleMouseMove 0 rectW rectH ds x y h f) := by
  obtain ⟨h0, h1, h2, h3⟩ := hin
  obtain ⟨h4, h5⟩ := hmin
  have hx : max 0 (min x (f.tx + f.sx - 100)) ≤ f.tx + f.sx - 100 :=
    clamp_le_bound _ _ (by linarith)
  have hy : max 0 (min y (f.ty + f.sy - 100)) ≤ f.ty + f.sy - 100 :=
    clamp_le_bound _ _ (by linarith)
  have cx : (0:ℚ) ≤ max 0 (min x (f.tx + f.sx - 100)) := clamp_nonneg _ _
  have cy : (0:ℚ) ≤ max 0 (min y (f.ty + f.sy - 100)) := clamp_nonneg _ _
  have mvx : max 0 (min (f.tx + (x - ds.1)) (rectW - f.sx)) ≤ rectW - f.sx :=
    clamp_le_bound _ _ (by linarith)
  have mvy : max 0 (min (f.ty + (y - ds.2)) (rectH - f.sy)) ≤ rectH - f.sy :=
    clamp_le_bound _ _ (by linarith)
  have rx : max 100 (min (x - f.tx) (rectW - f.tx)) ≤ rectW - f.tx :=
    max_le (by linarith) (min_le_right _ _)
  have ry : max 100 (min (y - f.ty) (rectH - f.ty)) ≤ rectH - f.ty :=
    max_le (by linarith) (min_le_right _ _)
  have mx : (100:ℚ) ≤ max 100 (min (x - f.tx) (rectW - f.tx)) := le_max_left _ _
  have my : (100:ℚ) ≤ max 100 (min (y - f.ty) (rectH - f.ty)) := le_max_left _ _
  cases h <;>
    simp [handleMouseMove, hasR, hasL, hasB, hasT, frameInStage, frameMinSize] <;>
    (repeat' apply And.intro) <;>
    first
      | exact le_max_left _ _
      | linarith

theorem inStage_runDrag (rectW rectH : ℚ) (evs : List PointerEvent)
    (ds : ℚ × ℚ) (f : FrameCoords) (hin : frameInStage rectW rectH f)
    (hmin : frameMinSize f) :
    frameInStage rectW rectH (runDrag 0 rectW rectH evs ds f) ∧
    frameMinSize (runDrag 0 rectW rectH evs ds f) := by
  induction evs generalizing ds f with
  | nil => exact ⟨hin, hmin⟩
  | cons e rest ih =>
      obtain ⟨hin2, hmin2⟩ := inStage_step rectW rectH ds e.x e.y e.handle f hin hmin
      exact ih _ _ hin2 hmin2

/-- C3: the claim fails as stated.  Even at the default aspectRatio = 1,
a right-edge resize grows sx under the horizontal clamps and then derives
sy = sx without clamping it against the stage, so a frame that starts
inside a 600 × 600 stage ends with ty + sy = 1090 > 600 after one
pointer-move update. -/
theorem c3_counterexample :
    frameInStage 600 600 (⟨0, 500, 100, 100⟩ : FrameCoords) ∧
    ¬ frameInStage 600 600
      (handleMouseMove defaultRatio 600 600 (0, 0) 590 0 Handle.r
        ⟨0, 500, 100, 100⟩) := by
  norm_num +decide [handleMouseMove, hasR, hasL, hasB, hasT, frameInStage,
    defaultRatio]

/-- C3 (amended): when no aspect ratio is fixed (a falsy aspectRatio,
modelled by 0, for which the source's truthiness test skips the aspect
branch), every drag sequence starting from a frame inside the stage with
both sizes at least 100 keeps the crop rectangle inside the stage after
every pointer-move update; with a fixed aspect ratio (including the
default 1) the derived dimension is not clamped against the stage and the
rectangle can extend outside it. -/
theorem c3_in_stage_no_aspect (rectW rectH : ℚ) (evs : List PointerEvent)
    (ds : ℚ × ℚ) (f : FrameCoords) (hin : frameInStage rectW rectH f)
    (hmin : frameMinSize f) :
    frameInStage rectW rectH (runDrag 0 rectW rectH evs ds f) :=
  (inStage_runDrag rectW rectH evs ds f hin hmin).1

/-- C3 witness: a concrete unconstrained right-edge drag. -/
theorem c3_in_stage_no_aspect_witness :
    frameInStage 600 600 (⟨0, 0, 100, 100⟩ : FrameCoords) ∧
    frameMinSize (⟨0, 0, 100, 100⟩ : FrameCoords) ∧
    frameInStage 600 600
      (runDrag 0 600 600 [⟨Handle.r, 650, 0⟩] (0, 0) ⟨0, 0, 100, 100⟩) :=
  ⟨by norm_num [frameInStage], by norm_num [frameMinSize],
    c3_in_stage_no_aspect 600 600 [⟨Handle.r, 650, 0⟩] (0, 0) ⟨0, 0, 100, 100⟩
      (by norm_num [frameInStage]) (by norm_num [frameMinSize])⟩

theorem handleMouseMove_l_tx_sx (ratio rectW rectH : ℚ) (ds : ℚ × ℚ)
    (x y : ℚ) (f : FrameCoords) :
    (handleMouseMove ratio rectW rectH ds x y Handle.l f).tx =
      max 0 (min x (f.tx + f.sx - 100)) ∧
    (handleMouseMove ratio rectW rectH ds x y Handle.l f).sx =
      f.sx + (f.tx - max 0 (min x (f.tx + f.sx - 100))) := by
  by_cases hrz : ratio = 0 <;>
    simp [handleMouseMove, hasR, hasL, hasB, hasT, hrz]

/-- C5: on a frame satisfying the data-model invariant (tx ≥ 0,
sx ≥ 100), a left-edge resize whose pointer x is at or beyond
tx + sx - 100 clamps the new left edge to tx + sx - 100, making the
resulting width exactly 100; and for every left-edge resize, with any
aspect ratio, the right edge tx + sx is unchanged by the edge
computation. -/
theorem c5_left_edge_clamp (ratio rectW rectH : ℚ) (ds : ℚ × ℚ) (x y : ℚ)
    (f : FrameCoords) (h0 : 0 ≤ f.tx) (h2 : 100 ≤ f.sx) :
    (f.tx + f.sx - 100 ≤ x →
      (handleMouseMove ratio rectW rectH ds x y Handle.l f).sx = 100) ∧
    (handleMouseMove ratio rectW rectH ds x y Handle.l f).tx +
      (handleMouseMove ratio rectW rectH ds x y Handle.l f).sx =
      f.tx + f.sx := by
  obtain ⟨htx, hsx⟩ := handleMouseMove_l_tx_sx ratio rectW rectH ds x y f
  constructor
  · intro hx
    rw [hsx, min_eq_right hx, max_eq_right (by linarith)]
    ring
  · rw [htx, hsx]
    ring

/-- C5 witness: a concrete left-edge drag past the clamp point. -/
theorem c5_left_edge_clamp_witness :
    (0:ℚ) ≤ 0 ∧ (100:ℚ) ≤ 300 ∧ (0:ℚ) + 300 - 100 ≤ 350 ∧
    (handleMouseMove 1 600 600 (0, 0) 350 0 Handle.l ⟨0, 0, 300, 300⟩).sx = 100 ∧
    (handleMouseMove 1 600 600 (0, 0) 350 0 Handle.l ⟨0, 0, 300, 300⟩).tx +
      (handleMouseMove 1 600 600 (0, 0) 350 0 Handle.l ⟨0, 0, 300, 300⟩).sx =
      (0:ℚ) + 300 := by
  have h := c5_left_edge_clamp 1 600 600 (0, 0) 350 0 ⟨0, 0, 300, 300⟩
    (by norm_num) (by norm_num)
  exact ⟨by norm_num, by norm_num, by norm_num, h.1 (by norm_num), h.2⟩

/-- Export environment read by handleCrop: the offset of the display
canvas relative to the stage, the canvas's native pixel width
(sourceCanvas.width) and its displayed on-screen width
(canvasRect.width). -/
structure CropEnv where
  offX : ℚ
  offY : ℚ
  nativeW : ℚ
  dispW : ℚ
deriving DecidableEq, Repr

/-- scale = sourceCanvas.width / canvasRect.width. -/
def cropScale (e : CropEnv) : ℚ := e.nativeW / e.dispW

/-- A rectangle in raster-native pixel coordinates, as adjustedCrop. -/
structure CropRect where
  x : ℚ
  y : ℚ
  width : ℚ
  height : ℚ
deriving DecidableEq, Repr

/-- adjustedCrop from handleCrop: the crop frame mapped from stage
coordinates to raster-native pixels. -/
def adjustedCrop (e : CropEnv) (f : FrameCoords) : CropRect :=
  { x := (f.tx - e.offX) * cropScale e
  , y := (f.ty - e.offY) * cropScale e
  , width := f.sx * cropScale e
  , height := f.sy * cropScale e }

/-- Geometry of one handleCrop invocation: the allocated output raster
size (canvas.width, canvas.height) and the source rectangle handed to
drawImage. -/
structure CropOutput where
  outW : ℚ
  outH : ℚ
  src : CropRect
deriving DecidableEq, Repr

/-- handleCrop sets canvas.width and canvas.height to the adjusted crop's
width and height and draws exactly the adjusted source rectangle. -/
def handleCropGeom (e : CropEnv) (f : FrameCoords) : CropOutput :=
  { outW := (adjustedCrop e f).width
  , outH := (adjustedCrop e f).height
  , src := adjustedCrop e f }

/-- C4: the exporter maps the crop rectangle to raster-native pixels by
x = (tx - offX) * scale, y = (ty - offY) * scale, width = sx * scale,
height = sy * scale with scale = nativeW / dispW, and allocates the
output raster exactly (width, height); at crop (10, 10, 100, 100) with
offset (0, 0) and a 400-wide native raster displayed at width 200
(scale 2), the output is 200 × 200 sourced from (20, 20, 200, 200). -/
theorem c4_export_geometry :
    (∀ (e : CropEnv) (f : FrameCoords),
      (handleCropGeom e f).src.x = (f.tx - e.offX) * (e.nativeW / e.dispW) ∧
      (handleCropGeom e f).src.y = (f.ty - e.offY) * (e.nativeW / e.dispW) ∧
      (handleCropGeom e f).src.width = f.sx * (e.nativeW / e.dispW) ∧
      (handleCropGeom e f).src.height = f.sy * (e.nativeW / e.dispW) ∧
      (handleCropGeom e f).outW = (handleCropGeom e f).src.width ∧
      (handleCropGeom e f).outH = (handleCropGeom e f).src.height) ∧
    handleCropGeom ⟨0, 0, 400, 200⟩ ⟨10, 10, 100, 100⟩ =
      ⟨200, 200, ⟨20, 20, 200, 200⟩⟩ := by
  constructor
  · intro e f
    refine ⟨rfl, rfl, rfl, rfl, rfl, rfl⟩
  · norm_num [handleCropGeom, adjustedCrop, cropScale]

/-- Encoded payload kinds: canvas.toDataURL format, jpeg lossy and png
lossless. -/
inductive ImageFormat where
  | jpeg
  | png
deriving DecidableEq, Repr

/-- Pixel content of the output canvas: the cropped region drawn from the
source raster, possibly composited with a mask raster via
destination-in. -/
inductive PixelContent where
  | croppedRegion (r : CropRect)
  | maskComposite (maskId : ℕ) (base : PixelContent)
deriving DecidableEq, Repr

/-- Outcome of the optional mask raster: absent, decoded successfully
(onload), or failed to decode (onerror). -/
inductive MaskStatus where
  | noMask
  | maskOk (maskId : ℕ)
  | maskFail
deriving DecidableEq, Repr

/-- What an export resolves with: the encoding format, the pixel content
serialized, and whether a decode failure was logged. -/
structure ExportResult where
  format : ImageFormat
  content : PixelContent
  loggedError : Bool
deriving DecidableEq, Repr

/-- handleCrop of the masked variant: draws the adjusted crop onto the
output canvas; with no mask it returns the jpeg payload of that canvas;
with a mask that decodes, it composites the mask (destination-in) and
resolves a png payload; on mask-decode failure it logs the error and
resolves the jpeg payload of the unmasked canvas. -/
def handleCropExport (ms : MaskStatus) (e : CropEnv) (f : FrameCoords) :
    ExportResult :=
  let base := PixelContent.croppedRegion (adjustedCrop e f)
  match ms with
  | .noMask => ⟨.jpeg, base, false⟩
  | .maskOk m => ⟨.png, .maskComposite m base, false⟩
  | .maskFail => ⟨.jpeg, base, true⟩

/-- C6: when the mask raster fails to decode, the export resolves with
the unmasked crop encoded as the lossy (jpeg) payload and logs the
failure; its pixel content equals that of exporting the same frame with
no mask. -/
theorem c6_mask_fallback (e : CropEnv) (f : FrameCoords) :
    (handleCropExport MaskStatus.maskFail e f).content =
      (handleCropExport MaskStatus.noMask e f).content ∧
    (handleCropExport MaskStatus.maskFail e f).format = ImageFormat.jpeg ∧
    (handleCropExport MaskStatus.maskFail e f).loggedError = true :=
  ⟨rfl, rfl, rfl⟩

/-- Availability of the rendering prerequisites checked by handleCrop:
canvasRef.current, stageRef.current and the output 2D context. -/
structure RenderRefs where
  canvasAvailable : Bool
  stageAvailable : Bool
  ctxAvailable : Bool
deriving DecidableEq, Repr

/-- handleCrop's guards: it returns before producing anything when the
canvas ref or the stage ref is missing, then again when getContext gives
no 2D context; otherwise it produces the crop geometry.  The model is a
total function: the source throws nowhere on this path. -/
def handleCropRun (refs : RenderRefs) (e : CropEnv) (f : FrameCoords) :
    Option CropOutput :=
  if !refs.canvasAvailable || !refs.stageAvailable then none
  else if !refs.ctxAvailable then none
  else some (handleCropGeom e f)

/-- The Done button's onClick: calls handleCrop and invokes onChange only
when a payload came back; the frame state is never written.  Returns the
frame after the click and the list of onChange invocations. -/
def doneClick (refs : RenderRefs) (e : CropEnv) (f : FrameCoords) :
    FrameCoords × List CropOutput :=
  match handleCropRun refs e f with
  | none => (f, [])
  | some out => (f, [out])

/-- C9: when the canvas ref, the stage ref or the 2D context is missing,
handleCrop returns no result, the Done click invokes no onChange
callback, and the frame is unchanged; the model being a total function,
no exception propagates. -/
theorem c9_missing_context_noop (refs : RenderRefs) (e : CropEnv)
    (f : FrameCoords)
    (hmiss : refs.canvasAvailable = false ∨ refs.stageAvailable = false ∨
      refs.ctxAvailable = false) :
    handleCropRun refs e f = none ∧ doneClick refs e f = (f, []) := by
  have hnone : handleCropRun refs e f = none := by
    rcases hmiss with hm | hm | hm <;> simp [handleCropRun, hm]
  exact ⟨hnone, by simp [doneClick, hnone]⟩

/-- C9 witness: a missing 2D context on a concrete frame. -/
theorem c9_missing_context_noop_witness :
    (⟨true, true, false⟩ : RenderRefs).ctxAvailable = false ∧
    handleCropRun ⟨true, true, false⟩ ⟨0, 0, 400, 200⟩ ⟨10, 10, 100, 100⟩ =
      none ∧
    doneClick ⟨true, true, false⟩ ⟨0, 0, 400, 200⟩ ⟨10, 10, 100, 100⟩ =
      (⟨10, 10, 100, 100⟩, []) :=
  ⟨rfl,
    (c9_missing_context_noop ⟨true, true, false⟩ ⟨0, 0, 400, 200⟩
      ⟨10, 10, 100, 100⟩ (Or.inr (Or.inr rfl))).1,
    (c9_missing_context_noop ⟨true, true, false⟩ ⟨0, 0, 400, 200⟩
      ⟨10, 10, 100, 100⟩ (Or.inr (Or.inr rfl))).2⟩

/-- Rotate-right button: setRotation(r => (r + 90) % 360). -/
def rotateRight (r : ℤ) : ℤ := (r + 90) % 360

/-- Rotate-left button: setRotation(r => (r - 90 + 360) % 360). -/
def rotateLeft (r : ℤ) : ℤ := (r - 90 + 360) % 360

/-- User rotation actions: the two buttons and a slider assignment. -/
inductive RotationAction where
  | rotLeft
  | rotRight
  | slider (v : ℤ)
deriving DecidableEq, Repr

/-- The slider is configured min 0, max 360, step 1, so the external
slider widget delivers an integer value between 0 and 360 inclusive. -/
def sliderValue (v : ℤ) : Prop := 0 ≤ v ∧ v ≤ 360

/-- One rotation action applied to the current rotation state; the
slider's onValueChange overwrites the state with the slider value. -/
def applyRotation : RotationAction → ℤ → ℤ
  | .rotLeft, r => rotateLeft r
  | .rotRight, r => rotateRight r
  | .slider v, _ => v

/-- An action is one the UI can deliver: buttons always, a slider
assignment only with a value the slider can produce. -/
def validAction : RotationAction → Prop
  | .slider v => sliderValue v
  | _ => True

/-- Folds a sequence of rotation actions over the rotation state. -/
def applyActions (acts : List RotationAction) (r : ℤ) : ℤ :=
  acts.foldl (fun s a => applyRotation a s) r

/-- The rotation state starts at useState(0). -/
def initialRotation : ℤ := 0

/-- Angle of a rotation in radians, (rotation * pi) / 180. -/
noncomputable def rotRad (deg : ℤ) : ℝ := (deg : ℝ) * Real.pi / 180

/-- Bounding-box width of the rotated raster,
newWidth = imgWidth * cos + imgHeight * sin with the absolute values of
cosine and sine of the rotation angle. -/
noncomputable def rotatedBBoxW (w h : ℝ) (deg : ℤ) : ℝ :=
  w * |Real.cos (rotRad deg)| + h * |Real.sin (rotRad deg)|

/-- Bounding-box height of the rotated raster,
newHeight = imgWidth * sin + imgHeight * cos. -/
noncomputable def rotatedBBoxH (w h : ℝ) (deg : ℤ) : ℝ :=
  w * |Real.sin (rotRad deg)| + h * |Real.cos (rotRad deg)|

/-- C7: from any rotation r in [0, 360), four rotate-right actions
return the rotation to r, and therefore the rotated-raster bounding-box
dimensions newWidth = w * |cos| + h * |sin| and
newHeight = w * |sin| + h * |cos| are restored. -/
theorem c7_rotate_four_times (w h : ℝ) (r : ℤ) (hr0 : 0 ≤ r)
    (hr1 : r < 360) :
    rotateRight (rotateRight (rotateRight (rotateRight r))) = r ∧
    rotatedBBoxW w h (rotateRight (rotateRight (rotateRight (rotateRight r)))) =
      rotatedBBoxW w h r ∧
    rotatedBBoxH w h (rotateRight (rotateRight (rotateRight (rotateRight r)))) =
      rotatedBBoxH w h r := by
  have h4 : rotateRight (rotateRight (rotateRight (rotateRight r))) = r := by
    simp only [rotateRight]
    omega
  exact ⟨h4, by rw [h4], by rw [h4]⟩

/-- C7 witness: four rotate-rights from rotation 0 on a 4 × 3 raster. -/
theorem c7_rotate_four_times_witness :
    (0:ℤ) ≤ 0 ∧ (0:ℤ) < 360 ∧
    (rotateRight (rotateRight (rotateRight (rotateRight 0))) = 0 ∧
      rotatedBBoxW 4 3 (rotateRight (rotateRight (rotateRight (rotateRight 0)))) =
        rotatedBBoxW 4 3 0 ∧
      rotatedBBoxH 4 3 (rotateRight (rotateRight (rotateRight (rotateRight 0)))) =
        rotatedBBoxH 4 3 0) :=
  ⟨le_refl 0, by norm_num, c7_rotate_four_times 4 3 0 (le_refl 0) (by norm_num)⟩

/-- C8: the claim fails as stated.  The slider is configured with
max = 360 inclusive, so the single action "set the slider to 360" is a
value the slider can produce and leaves the rotation at 360, outside
[0, 360). -/
theorem c8_counterexample :
    validAction (RotationAction.slider 360) ∧
    applyActions [RotationAction.slider 360] initialRotation = 360 ∧
    ¬ applyActions [RotationAction.slider 360] initialRotation < 360 := by
  refine ⟨⟨by norm_num, le_refl 360⟩, rfl, ?_⟩
  norm_num [applyActions, applyRotation, initialRotation, List.foldl]

theorem rotation_bounds_step (a : RotationAction) (r : ℤ)
    (ha : validAction a) (h0 : 0 ≤ r) (h1 : r ≤ 360) :
    0 ≤ applyRotation a r ∧ applyRotation a r ≤ 360 := by
  cases a with
  | rotLeft =>
      simp only [applyRotation, rotateLeft]
      omega
  | rotRight =>
      simp only [applyRotation, rotateRight]
      omega
  | slider v =>
      simpa [applyRotation, validAction, sliderValue] using ha

/-- C8 (amended): starting from the initial rotation 0, every sequence
of rotate-left, rotate-right and slider actions keeps the rotation an
integer in [0, 360] inclusive; the two buttons map into [0, 360), but
the slider's configured maximum is 360, so the value 360 itself is
reachable and the half-open interval [0, 360) is not an invariant. -/
theorem c8_rotation_range (acts : List RotationAction)
    (hv : ∀ a ∈ acts, validAction a) :
    0 ≤ applyActions acts initialRotation ∧
    applyActions acts initialRotation ≤ 360 := by
  suffices h : ∀ (l : List RotationAction) (r : ℤ), (∀ a ∈ l, validAction a) →
      0 ≤ r → r ≤ 360 → 0 ≤ applyActions l r ∧ applyActions l r ≤ 360 by
    exact h acts initialRotation hv (by norm_num [initialRotation])
      (by norm_num [initialRotation])
  intro l
  induction l with
  | nil => exact fun r _ h0 h1 => ⟨h0, h1⟩
  | cons a rest ih =>
      intro r hval h0 h1
      obtain ⟨s0, s1⟩ := rotation_bounds_step a r (hval a (List.mem_cons_self a rest)) h0 h1
      exact ih (applyRotation a r) (fun b hb => hval b (List.mem_cons_of_mem a hb)) s0 s1

/-- C8 witness: a concrete action sequence using both buttons and the
slider at its maximum. -/
theorem c8_rotation_range_witness :
    (∀ a ∈ [RotationAction.rotRight, RotationAction.slider 360,
      RotationAction.rotLeft], validAction a) ∧
    0 ≤ applyActions [RotationAction.rotRight, RotationAction.slider 360,
      RotationAction.rotLeft] initialRotation ∧
    applyActions [RotationAction.rotRight, RotationAction.slider 360,
      RotationAction.rotLeft] initialRotation ≤ 360 := by
  have hv : ∀ a ∈ [RotationAction.rotRight, RotationAction.slider 360,
      RotationAction.rotLeft], validAction a := by
    intro a ha
    fin_cases ha <;> simp [validAction, sliderValue]
  exact ⟨hv, c8_rotation_range _ hv⟩

/-- C10: the aspectRatio prop defaults to 1 when omitted, 1 is truthy,
so the aspect branch runs on every resize update: for every pointer-move
with a resize handle (any handle other than move), the resulting frame
has sx = sy under the default configuration, and free-form resizing is
impossible. -/
theorem c10_default_ratio_square (rectW rectH : ℚ) (ds : ℚ × ℚ) (x y : ℚ)
    (h : Handle) (hne : h ≠ Handle.move) (f : FrameCoords) :
    (handleMouseMove defaultRatio rectW rectH ds x y h f).sx =
    (handleMouseMove defaultRatio rectW rectH ds x y h f).sy := by
  cases h <;>
    first
      | exact absurd rfl hne
      | simp [handleMouseMove, hasR, hasL, hasB, hasT, defaultRatio,
          div_one, mul_one]

/-- C10 witness: a concrete bottom-edge resize at the default ratio. -/
theorem c10_default_ratio_square_witness :
    Handle.b ≠ Handle.move ∧
    (handleMouseMove defaultRatio 600 600 (0, 0) 0 350 Handle.b
      ⟨0, 0, 300, 300⟩).sx =
    (handleMouseMove defaultRatio 600 600 (0, 0) 0 350 Handle.b
      ⟨0, 0, 300, 300⟩).sy :=
  ⟨by simp,
    c10_default_ratio_square 600 600 (0, 0) 0 350 Handle.b (by simp)
      ⟨0, 0, 300, 300⟩⟩

end Cropper
